import Mathlib

/-!
Verification of the nonce-lens live-stream analytics backend.

This file gives a shallow embedding of the parts of the backend that the
checked claims are about:

* `get_stream_metrics` (backend/app/routers/live_streams.py, lines 1620-1838):
  request validation, per-multiplier gap statistics (tolerance selection,
  `LAG(nonce) OVER (ORDER BY nonce)` gaps, mean / population std-dev / p90 /
  max, observed ETA) and the nonce-window density histogram.
* `ingest_bet` (backend/app/routers/live_streams.py, lines 79-194):
  stream lookup/creation by seed pair and idempotent duplicate handling on
  `(stream_id, antebot_bet_id)`.
* `list_stream_bets` / `tail_stream_bets` (backend/app/routers/bets.py):
  the `distance_prev_opt` window computation
  (`nonce - LAG(nonce) OVER (PARTITION BY round_result ORDER BY nonce)`) and
  the incremental tail query (`id > since_id ORDER BY id ASC`).
* the `bucket_2dp` generated column of the migration
  backend/app/migrations/add_bucket_2dp_column.py (`ROUND(round_result, 2)`).

SQL REAL values are modelled as rationals, SQL INTEGER as Nat/Int.  Database
tables are lists of rows; `ORDER BY` is insertion sort on the relevant key,
which matches SQLite's ordering on the keys used here (the code never relies
on tie order for distinct keys).
-/

/-- Row of the `live_streams` table (models/live_streams.py).  Only the
columns the checked claims use are carried; `id` is modelled as a Nat. -/
structure LiveStream where
  id : Nat
  server_seed_hashed : String
  client_seed : String
deriving DecidableEq

/-- Row of the `live_bets` table (models/live_streams.py).  Only the columns
used by the checked endpoints are carried: the integer primary key `id`, the
owning stream, the Antebot bet id (uniqueness key with the stream), the nonce
(`sequence_index`, an integer ≥ 1) and the round result (a SQL REAL, modelled
as a rational). -/
structure LiveBet where
  id : Nat
  stream_id : Nat
  antebot_bet_id : String
  nonce : Nat
  round_result : ℚ
deriving DecidableEq

/-- The visible database state: the two tables, plus the id counters that
stand for SQLite's rowid/uuid generation when a row is inserted. -/
structure Db where
  streams : List LiveStream
  bets : List LiveBet
  nextStreamId : Nat
  nextBetId : Nat
deriving DecidableEq

/-- Tagged failure of an endpoint: HTTP 400 (invalid argument) or
HTTP 404 (not found), with the detail string of the HTTPException. -/
inductive ApiError where
  | invalidArgument (detail : String)
  | notFound (detail : String)
deriving DecidableEq

/-! ### Ordering used by `ORDER BY nonce` and `ORDER BY id` -/

/-- Comparison used by `ORDER BY nonce`. -/
def nonceLe (a b : LiveBet) : Prop := a.nonce ≤ b.nonce

instance : DecidableRel nonceLe :=
  fun a b => inferInstanceAs (Decidable (a.nonce ≤ b.nonce))

instance : IsTotal LiveBet nonceLe := ⟨fun a b => Nat.le_total a.nonce b.nonce⟩

instance : IsTrans LiveBet nonceLe := ⟨fun _ _ _ h h2 => Nat.le_trans h h2⟩

/-- Comparison used by `ORDER BY id`. -/
def idLe (a b : LiveBet) : Prop := a.id ≤ b.id

instance : DecidableRel idLe :=
  fun a b => inferInstanceAs (Decidable (a.id ≤ b.id))

instance : IsTotal LiveBet idLe := ⟨fun a b => Nat.le_total a.id b.id⟩

instance : IsTrans LiveBet idLe := ⟨fun _ _ _ h h2 => Nat.le_trans h h2⟩

/-- `ORDER BY nonce` of a result set. -/
def sortByNonce (l : List LiveBet) : List LiveBet := List.insertionSort nonceLe l

/-- `ORDER BY id ASC` of a result set. -/
def sortById (l : List LiveBet) : List LiveBet := List.insertionSort idLe l

/-! ### Per-multiplier statistics of `get_stream_metrics` -/

/-- Selection predicate of the per-multiplier query:
`ABS(round_result - :multiplier) <= :tolerance`. -/
def matchesTol (tol m : ℚ) (b : LiveBet) : Bool :=
  decide (|b.round_result - m| ≤ tol)

/-- The rows of the per-multiplier query: the stream's bets matching the
multiplier within tolerance, `ORDER BY nonce`. -/
def matchingRows (bets : List LiveBet) (tol m : ℚ) : List LiveBet :=
  sortByNonce (bets.filter (matchesTol tol m))

/-- The non-null gap column produced by
`nonce - LAG(nonce) OVER (ORDER BY nonce)`: one entry per row after the
first, pairing each row with its immediate predecessor.  (The first row's
LAG is NULL and is dropped by the Python code before any statistic, so only
the non-null gaps are materialised here.) -/
def lagGaps (l : List LiveBet) : List ℤ :=
  List.zipWith (fun prev cur => (cur.nonce : ℤ) - (prev.nonce : ℤ)) l l.tail

/-- `mean_gap = sum(gaps) / len(gaps)`. -/
def gapMean (gaps : List ℤ) : ℚ :=
  (gaps.map (fun g => (g : ℚ))).sum / (gaps.length : ℚ)

/-- `variance = sum((gap - mean_gap) ** 2 for gap in gaps) / len(gaps)`;
the code reports `std_gap = variance ** 0.5`, so this is the square of the
reported standard deviation. -/
def gapVariance (gaps : List ℤ) : ℚ :=
  (gaps.map (fun g => ((g : ℚ) - gapMean gaps) ^ 2)).sum / (gaps.length : ℚ)

/-- `p90_gap = sorted(gaps)[min(int(0.9 * len(gaps)), len(gaps) - 1)]`.
For list lengths below 2^53 the float product `0.9 * n` floors to
`9 * n / 10` in integer arithmetic, which is how the index is written here. -/
def gapP90 (gaps : List ℤ) : ℤ :=
  let sorted := List.insertionSort (fun a b => a ≤ b) gaps
  sorted.getD (min (9 * gaps.length / 10) (gaps.length - 1)) 0

/-- `max_gap = max(gaps)` (only evaluated on a non-empty list by the code;
the `[]` case is unreachable there). -/
def gapMax : List ℤ → ℤ
  | [] => 0
  | g :: gs => gs.foldl max g

/-- Response entry for one requested multiplier (schema `MultiplierMetrics`).
The backend schema module is not part of the sources; Modelled from the spec:
sections 4.3 and 4.6 make the statistics and the observed ETA nullable
response fields, so they are carried as `Option` here.  The router code
itself always supplies concrete values for all of them except
`eta_theoretical`, which it always sets to `None`.  The code's float
`std_gap` is `sqrt` of the rational `std_gap_sq` carried here; `sqrt` is
strictly monotone on nonnegatives, so every claim about `std_gap` is stated
on its square. -/
structure MultiplierMetrics where
  multiplier : ℚ
  count : Nat
  last_nonce : Nat
  mean_gap : Option ℚ
  std_gap_sq : Option ℚ
  p90_gap : Option ℤ
  max_gap : Option ℤ
  eta_theoretical : Option ℚ
  eta_observed : Option ℚ
deriving DecidableEq

/-- The `count = 0` entry appended for a multiplier with no occurrences
(routers/live_streams.py lines 1801-1813): every statistic a concrete zero,
`eta_theoretical` the only null. -/
def emptyMultiplierMetrics (m : ℚ) : MultiplierMetrics :=
  { multiplier := m, count := 0, last_nonce := 0,
    mean_gap := some 0, std_gap_sq := some 0, p90_gap := some 0,
    max_gap := some 0, eta_theoretical := none, eta_observed := some 0 }

/-- Per-multiplier statistics computed from the ordered query rows,
following routers/live_streams.py lines 1759-1813.  The three cases are the
code's branches: no rows at all (`count = 0` entry with zeroed statistics),
rows but no gaps (exactly one row: zeroed statistics, `eta = float(last_nonce)`),
and at least one gap. -/
def metricsFromRows (m : ℚ) : List LiveBet → MultiplierMetrics
  | [] => emptyMultiplierMetrics m
  | [r0] =>
    { multiplier := m, count := 1, last_nonce := r0.nonce,
      mean_gap := some 0, std_gap_sq := some 0, p90_gap := some 0,
      max_gap := some 0, eta_theoretical := none,
      eta_observed := some (r0.nonce : ℚ) }
  | r0 :: r1 :: rest =>
    let rows := r0 :: r1 :: rest
    let gaps := lagGaps rows
    let meanGap := gapMean gaps
    let lastN := (List.getLastD (r1 :: rest) r0).nonce
    { multiplier := m, count := rows.length, last_nonce := lastN,
      mean_gap := some meanGap, std_gap_sq := some (gapVariance gaps),
      p90_gap := some (gapP90 gaps), max_gap := some (gapMax gaps),
      eta_theoretical := none,
      eta_observed := some ((lastN : ℚ) + meanGap) }

/-- One iteration of the per-multiplier loop of `get_stream_metrics`. -/
def multiplierMetrics (bets : List LiveBet) (tol m : ℚ) : MultiplierMetrics :=
  metricsFromRows m (matchingRows bets tol m)

/-- The `multiplier_stats` list: the loop appends one entry per requested
multiplier, in request order, each computed independently. -/
def streamMultiplierStats (bets : List LiveBet) (tol : ℚ) (ms : List ℚ) :
    List MultiplierMetrics :=
  ms.map (fun m => multiplierMetrics bets tol m)

/-! ### Density histogram of `get_stream_metrics` -/

/-- `CAST(nonce / :bucket_size AS INTEGER)`: SQLite integer division, which
on the nonnegative operands used here is Nat division. -/
def densityKey (w : Nat) (b : LiveBet) : Nat := b.nonce / w

/-- The density query: `GROUP BY nonce / bucket_size` with `COUNT(*)`,
`ORDER BY bucket_id`.  Group keys are the distinct values of `densityKey`
over the stream's bets — only windows with at least one event appear. -/
def densityBuckets (w : Nat) (bets : List LiveBet) : List (Nat × Nat) :=
  (List.insertionSort (fun a b => a ≤ b) ((bets.map (densityKey w)).dedup)).map
    (fun k => (k, (bets.map (densityKey w)).count k))

/-- Success payload of `get_stream_metrics` (schema `StreamMetrics`),
restricted to the fields the checked claims are about.  The time-based KPI
fields (`hit_rate`, timestamps) and `top_peaks` are independent of every
claim and are omitted. -/
structure StreamMetrics where
  stream_id : Nat
  total_bets : Nat
  multiplier_stats : List MultiplierMetrics
  density_buckets : List (Nat × Nat)
deriving DecidableEq

/-- Query parameters of `get_stream_metrics`.  `bucket_size` and
`top_peaks_limit` are SQL/Python ints (possibly negative before validation),
so they are carried as `Int`. -/
structure MetricsParams where
  multipliers : List ℚ
  tolerance : ℚ
  bucket_size : ℤ
  top_peaks_limit : ℤ
deriving DecidableEq

/-- The `get_stream_metrics` endpoint (routers/live_streams.py lines
1620-1838): validation in code order (tolerance, bucket_size,
top_peaks_limit), then the stream-existence check, then the read-only
computation over the stream's bets. -/
def getStreamMetrics (db : Db) (streamId : Nat) (p : MetricsParams) :
    Except ApiError StreamMetrics :=
  if p.tolerance ≤ 0 then
    .error (.invalidArgument "tolerance must be greater than 0")
  else if p.bucket_size ≤ 0 then
    .error (.invalidArgument "bucket_size must be greater than 0")
  else if p.top_peaks_limit ≤ 0 ∨ 100 < p.top_peaks_limit then
    .error (.invalidArgument "top_peaks_limit must be between 1 and 100")
  else
    match db.streams.find? (fun s => s.id == streamId) with
    | none => .error (.notFound "stream not found")
    | some _ =>
      let bets := db.bets.filter (fun b => b.stream_id == streamId)
      .ok { stream_id := streamId,
            total_bets := bets.length,
            multiplier_stats := streamMultiplierStats bets p.tolerance p.multipliers,
            density_buckets :=
              if 0 < bets.length then densityBuckets p.bucket_size.toNat bets
              else [] }

/-! ### `distance_prev_opt` of `list_stream_bets` / `tail_stream_bets` -/

/-- `nonce - LAG(nonce) OVER (PARTITION BY round_result ORDER BY nonce)` for
one row: the partition is the rows whose raw `round_result` equals this
row's exactly, and the LAG predecessor is the partition row with the
greatest nonce strictly below this row's (rows of one partition have
distinct nonces in any state reachable by ingestion of distinct bets; SQL
leaves the tie order unspecified). -/
def distance_prev_opt (bets : List LiveBet) (b : LiveBet) : Option ℤ :=
  match ((sortByNonce (bets.filter (fun x => decide (x.round_result = b.round_result)))).filter
      (fun x => decide (x.nonce < b.nonce))).getLast? with
  | none => none
  | some p => some ((b.nonce : ℤ) - (p.nonce : ℤ))

/-- The `bucket_2dp` generated column of the migration:
`ROUND(round_result, 2)`.  SQLite's ROUND is round-half-away-from-zero,
which on the nonnegative results stored here agrees with `round`. -/
def bucket_2dp (q : ℚ) : ℚ := ((round (q * 100) : ℤ) : ℚ) / 100

/-! ### `ingest_bet` -/

/-- Ingest request payload (the fields the dedup logic uses). -/
structure IngestBetRequest where
  id : String
  serverSeedHashed : String
  clientSeed : String
  nonce : Nat
  roundResult : ℚ
deriving DecidableEq

/-- Ingest response: the stream the bet belongs to and whether the bet was
newly inserted (`accepted = False` for duplicates). -/
structure IngestResponse where
  streamId : Nat
  accepted : Bool
deriving DecidableEq

/-- Stream lookup predicate of `ingest_bet`: match on the seed pair. -/
def seedPairMatches (r : IngestBetRequest) (s : LiveStream) : Bool :=
  s.server_seed_hashed == r.serverSeedHashed && s.client_seed == r.clientSeed

/-- Duplicate-check predicate of `ingest_bet`:
same stream and same `antebot_bet_id`. -/
def isDuplicateOf (sid : Nat) (betId : String) (b : LiveBet) : Bool :=
  b.stream_id == sid && b.antebot_bet_id == betId

/-- Second half of `ingest_bet`, once the stream is resolved: select for an
existing `(stream_id, antebot_bet_id)` row; on a hit return
`accepted = False` without touching the table, otherwise insert the new row. -/
def insertBet (db : Db) (s : LiveStream) (r : IngestBetRequest) :
    IngestResponse × Db :=
  match db.bets.find? (isDuplicateOf s.id r.id) with
  | some _ => ({ streamId := s.id, accepted := false }, db)
  | none =>
    let newBet : LiveBet :=
      { id := db.nextBetId, stream_id := s.id, antebot_bet_id := r.id,
        nonce := r.nonce, round_result := r.roundResult }
    ({ streamId := s.id, accepted := true },
     { db with bets := db.bets ++ [newBet], nextBetId := db.nextBetId + 1 })

/-- The `ingest_bet` endpoint (routers/live_streams.py lines 79-194),
sequential semantics: find or create the stream for the seed pair, then the
idempotent duplicate check and insert. -/
def ingestBet (db : Db) (r : IngestBetRequest) : IngestResponse × Db :=
  match db.streams.find? (seedPairMatches r) with
  | some stream => insertBet db stream r
  | none =>
    let s : LiveStream :=
      { id := db.nextStreamId, server_seed_hashed := r.serverSeedHashed,
        client_seed := r.clientSeed }
    let db2 := { db with streams := db.streams ++ [s],
                         nextStreamId := db.nextStreamId + 1 }
    insertBet db2 s r

/-- The invariant of the `idx_live_bets_unique_bet` unique index: no two
distinct rows of `live_bets` share `(stream_id, antebot_bet_id)`. -/
def BetsUnique (bets : List LiveBet) : Prop :=
  bets.Pairwise (fun a b => ¬(a.stream_id = b.stream_id ∧ a.antebot_bet_id = b.antebot_bet_id))

/-! ### `tail_stream_bets` -/

/-- Response of the tail endpoint (schema `TailResponse`): the new bets, the
greatest returned id (None when nothing new), and the always-False
`has_more`. -/
structure TailResponse where
  bets : List LiveBet
  last_id : Option Nat
  has_more : Bool
deriving DecidableEq

/-- The `tail_stream_bets` endpoint (routers/bets.py lines 211-353,
`include_distance=False` branch; the other branch differs only in the
per-row distance annotation): validate `since_id`, check the stream, then
return the stream's bets with `id > since_id`, `ORDER BY id ASC`; `last_id`
is the id of the last row seen by the loop, or None when no row was. -/
def tailStreamBets (db : Db) (streamId : Nat) (sinceId : ℤ) :
    Except ApiError TailResponse :=
  if sinceId < 0 then
    .error (.invalidArgument "since_id cannot be negative")
  else
    match db.streams.find? (fun s => s.id == streamId) with
    | none => .error (.notFound "stream not found")
    | some _ =>
      let newBets := sortById (db.bets.filter
        (fun b => b.stream_id == streamId && decide (sinceId < (b.id : ℤ))))
      .ok { bets := newBets,
            last_id := newBets.getLast?.map (fun b => b.id),
            has_more := false }

/-! ### Concrete rows used by the worked examples -/

/-- Event at nonce 100 with result 1000.00 (stream 7). -/
def exBet1 : LiveBet := ⟨1, 7, "a", 100, 1000⟩

/-- Event at nonce 300 with result 1000.00 (stream 7). -/
def exBet2 : LiveBet := ⟨2, 7, "b", 300, 1000⟩

/-- Event at nonce 600 with result 1000.00 (stream 7). -/
def exBet3 : LiveBet := ⟨3, 7, "c", 600, 1000⟩

/-- The three events of the worked gap example. -/
def exBets : List LiveBet := [exBet1, exBet2, exBet3]

/-- Event whose raw result 10.001 rounds to the 2-decimal bucket 10.00. -/
def cexBetA : LiveBet := ⟨1, 7, "a", 100, 10001 / 1000⟩

/-- Event whose raw result 10.004 rounds to the same 2-decimal bucket 10.00
but differs from `cexBetA` in the raw value. -/
def cexBetB : LiveBet := ⟨2, 7, "b", 300, 10004 / 1000⟩

/-! ### Shared lemmas -/

/-- Indexing the tail shifts the index by one. -/
theorem tail_getElem? {α : Type _} (l : List α) (i : Nat) :
    l.tail[i]? = l[i + 1]? := by
  cases l with
  | nil => simp
  | cons a t => simp [List.getElem?_cons_succ]

/-- The last element of a list is a member. -/
theorem mem_of_getLast?_eq_some {α : Type _} {l : List α} {a : α}
    (h : l.getLast? = some a) : a ∈ l := by
  cases l with
  | nil => simp at h
  | cons b t =>
    have hne : (b :: t) ≠ [] := by simp
    rw [List.getLast?_eq_getLast _ hne] at h
    have ha : (b :: t).getLast hne = a := by injection h
    exact ha ▸ List.getLast_mem hne

/-- In a sorted list every element is below (or equal to) the last one. -/
theorem sorted_rel_getLast {α : Type _} {r : α → α → Prop} :
    ∀ {l : List α}, l.Sorted r → ∀ {p : α}, l.getLast? = some p →
      ∀ x ∈ l, x = p ∨ r x p := by
  intro l
  induction l with
  | nil => intro _ p hp; simp at hp
  | cons a t ih =>
    intro hs p hp x hx
    cases t with
    | nil =>
      simp at hp hx
      subst hp; subst hx; exact Or.inl rfl
    | cons b t2 =>
      rw [List.getLast?_cons_cons] at hp
      have hcons := List.sorted_cons.mp hs
      rcases List.mem_cons.mp hx with hxa | hxt
      · subst hxa
        exact Or.inr (hcons.1 p (mem_of_getLast?_eq_some hp))
      · exact ih hcons.2 hp x hxt

/-- Counting a value in a mapped list is counting preimages. -/
theorem count_map_eq_countP {α : Type _} [DecidableEq α]
    (f : α → Nat) (l : List α) (k : Nat) :
    (l.map f).count k = l.countP (fun x => f x == k) := by
  induction l with
  | nil => simp
  | cons a t ih =>
    by_cases h : f a = k
    · simp [List.count_cons, List.countP_cons, h, ih]
    · simp [List.count_cons, List.countP_cons, h, ih, Ne.symm h]

/-- Membership of a half-open nonce window is division by the width. -/
theorem div_eq_iff_window {w n k : Nat} (hw : 0 < w) :
    n / w = k ↔ k * w ≤ n ∧ n < (k + 1) * w := by
  constructor
  · intro h
    refine ⟨?_, ?_⟩
    · exact (Nat.le_div_iff_mul_le hw).mp (le_of_eq h.symm)
    · exact (Nat.div_lt_iff_lt_mul hw).mp (h ▸ Nat.lt_succ_self k)
  · rintro ⟨h1, h2⟩
    exact Nat.le_antisymm
      (Nat.lt_succ_iff.mp ((Nat.div_lt_iff_lt_mul hw).mpr h2))
      ((Nat.le_div_iff_mul_le hw).mpr h1)

/-- Summing the multiplicities of a covering list of distinct keys gives the
length of the list being counted. -/
theorem sum_count_over_keys :
    ∀ (keys : List Nat) (l : List Nat), keys.Nodup → (∀ x ∈ l, x ∈ keys) →
      (keys.map (fun k => l.count k)).sum = l.length := by
  intro keys
  induction keys with
  | nil =>
    intro l _ hcov
    have : l = [] := List.eq_nil_iff_forall_not_mem.mpr (fun a ha => by
      exact absurd (hcov a ha) (List.not_mem_nil a))
    simp [this]
  | cons k ks ih =>
    intro l hnd hcov
    have hk_not : k ∉ ks := (List.nodup_cons.mp hnd).1
    have hnd' : ks.Nodup := (List.nodup_cons.mp hnd).2
    set l' := l.filter (fun x => !(x == k)) with hl'
    have hcov' : ∀ x ∈ l', x ∈ ks := by
      intro x hx
      rcases List.mem_filter.mp hx with ⟨hxl, hxk⟩
      have hxne : x ≠ k := by
        intro hxeq
        simp [hxeq] at hxk
      rcases List.mem_cons.mp (hcov x hxl) with h | h
      · exact absurd h hxne
      · exact h
    have hcount : ∀ k2 ∈ ks, l.count k2 = l'.count k2 := by
      intro k2 hk2
      have hne : k2 ≠ k := fun h => hk_not (h ▸ hk2)
      rw [hl', List.count_filter]
      simp [hne]
    have hsum : (ks.map (fun k2 => l.count k2)).sum
        = (ks.map (fun k2 => l'.count k2)).sum := by
      apply congrArg
      exact List.map_congr_left hcount
    have hsplit : l.length = l.count k + l'.length := by
      rw [List.count, List.countP_eq_length_filter, hl']
      have := List.length_eq_countP_add_countP (fun x => x == k) (l := l)
      rw [List.countP_eq_length_filter, List.countP_eq_length_filter] at this
      simpa using this
    rw [List.map_cons, List.sum_cons, hsum, ih l' hnd' hcov', hsplit]

/-- Unfolding of the gap column for two or more rows. -/
theorem lagGaps_cons_cons (a b : LiveBet) (t : List LiveBet) :
    lagGaps (a :: b :: t) = ((b.nonce : ℤ) - (a.nonce : ℤ)) :: lagGaps (b :: t) := by
  simp [lagGaps]

/-- The gap column has one entry per row beyond the first. -/
theorem lagGaps_length (l : List LiveBet) :
    (lagGaps l).length = l.length - 1 := by
  cases l with
  | nil => simp [lagGaps]
  | cons a t => simp [lagGaps, List.length_zipWith]

/-- The float index `int(0.9 * n)` equals `9 * n / 10` in exact arithmetic. -/
theorem floor_nine_tenths (n : Nat) :
    Nat.floor ((9 / 10 : ℚ) * n) = 9 * n / 10 := by
  have h : (9 / 10 : ℚ) * n = ((9 * n : Nat) : ℚ) / ((10 : Nat) : ℚ) := by
    push_cast; ring
  rw [h, Nat.floor_div_nat, Nat.floor_natCast]

/-- The ordered per-multiplier result set is a permutation of the filter. -/
theorem matchingRows_perm (bets : List LiveBet) (tol m : ℚ) :
    (matchingRows bets tol m).Perm (bets.filter (matchesTol tol m)) :=
  List.perm_insertionSort nonceLe _

/-- The ordered per-multiplier result set is sorted by nonce. -/
theorem matchingRows_sorted (bets : List LiveBet) (tol m : ℚ) :
    (matchingRows bets tol m).Sorted nonceLe :=
  List.sorted_insertionSort nonceLe _

/-- Membership in the per-multiplier result set is exactly the tolerance
match. -/
theorem mem_matchingRows {bets : List LiveBet} {tol m : ℚ} {b : LiveBet} :
    b ∈ matchingRows bets tol m ↔ b ∈ bets ∧ |b.round_result - m| ≤ tol := by
  rw [(matchingRows_perm bets tol m).mem_iff, List.mem_filter, matchesTol,
    decide_eq_true_iff]

/-- Every branch of the per-multiplier computation keys the entry by the
requested multiplier value. -/
theorem multiplierMetrics_multiplier (bets : List LiveBet) (tol m : ℚ) :
    (multiplierMetrics bets tol m).multiplier = m := by
  unfold multiplierMetrics
  rcases matchingRows bets tol m with _ | ⟨r0, _ | ⟨r1, rest⟩⟩ <;> rfl

/-- The last element of a two-or-more-element list, as `getLastD` of its
tail. -/
theorem getLast?_cons_cons_eq {α : Type _} (r0 r1 : α) (rest : List α) :
    (r0 :: r1 :: rest).getLast? = some ((r1 :: rest).getLastD r0) := by
  rw [List.getLast?_cons_cons, List.getLastD_eq_getLast?]
  cases h : (r1 :: rest).getLast? with
  | none => rw [List.getLast?_eq_none_iff] at h; cases h
  | some x => rfl

/-- Shape of a successful metrics response: the stats list is the map of the
per-multiplier computation over the requested multipliers. -/
theorem getStreamMetrics_ok_shape {db : Db} {sid : Nat} {p : MetricsParams}
    {r : StreamMetrics} (h : getStreamMetrics db sid p = .ok r) :
    r.multiplier_stats =
      streamMultiplierStats (db.bets.filter (fun b => b.stream_id == sid))
        p.tolerance p.multipliers := by
  unfold getStreamMetrics at h
  split at h
  · cases h
  · split at h
    · cases h
    · split at h
      · cases h
      · split at h
        · cases h
        · rw [Except.ok.injEq] at h
          rw [← h]

/-- All three example events match multiplier 1000 within tolerance 1. -/
theorem exBets_filter : exBets.filter (matchesTol 1 1000) = exBets := by
  have h1 : matchesTol 1 1000 exBet1 = true := by norm_num [matchesTol, exBet1]
  have h2 : matchesTol 1 1000 exBet2 = true := by norm_num [matchesTol, exBet2]
  have h3 : matchesTol 1 1000 exBet3 = true := by norm_num [matchesTol, exBet3]
  simp only [exBets, List.filter_cons, h1, h2, h3, if_true, List.filter_nil]

/-- The example events are already in nonce order. -/
theorem exBets_rows : matchingRows exBets 1 1000 = exBets := by
  rw [matchingRows, exBets_filter]
  simp [exBets, sortByNonce, List.insertionSort, List.orderedInsert,
    exBet1, exBet2, exBet3, nonceLe]

/-- The singleton example row set. -/
theorem exBets_rows_single : matchingRows [exBet1] 1 1000 = [exBet1] := by
  have h1 : matchesTol 1 1000 exBet1 = true := by norm_num [matchesTol, exBet1]
  rw [matchingRows]
  simp only [List.filter_cons, h1, if_true, List.filter_nil]
  simp [sortByNonce, List.insertionSort, List.orderedInsert]

/-- The two-element example row set. -/
theorem exBets_rows_pair :
    matchingRows [exBet1, exBet2] 1 1000 = [exBet1, exBet2] := by
  have h1 : matchesTol 1 1000 exBet1 = true := by norm_num [matchesTol, exBet1]
  have h2 : matchesTol 1 1000 exBet2 = true := by norm_num [matchesTol, exBet2]
  rw [matchingRows]
  simp only [List.filter_cons, h1, h2, if_true, List.filter_nil]
  simp [sortByNonce, List.insertionSort, List.orderedInsert,
    exBet1, exBet2, nonceLe]

/-- Claim C7: a metrics request with tolerance ≤ 0 fails with the
InvalidArgument condition, for every database state alike (in particular
whether or not the stream exists), since the check precedes the stream
lookup and every read. -/
theorem metrics_tolerance_validation (db db2 : Db) (sid : Nat)
    (p : MetricsParams) (h : p.tolerance ≤ 0) :
    getStreamMetrics db sid p =
      .error (.invalidArgument "tolerance must be greater than 0") ∧
    getStreamMetrics db sid p = getStreamMetrics db2 sid p := by
  constructor <;> simp [getStreamMetrics, if_pos h]

/-- Witness for C7: tolerance 0 is rejected on a concrete database. -/
theorem metrics_tolerance_validation_witness :
    (0 : ℚ) ≤ 0 ∧
    getStreamMetrics ⟨[], [], 0, 0⟩ 1 ⟨[], 0, 1000, 20⟩ =
      .error (.invalidArgument "tolerance must be greater than 0") :=
  ⟨le_refl 0,
    (metrics_tolerance_validation ⟨[], [], 0, 0⟩ ⟨[⟨1, "h", "c"⟩], [], 2, 1⟩ 1
      ⟨[], 0, 1000, 20⟩ (le_refl 0)).1⟩

/-- Claim C3: on a non-empty gap sequence the square of the reported
std_gap is the population variance (the divisor is the gap count, not the
count minus one), it is 0 when there is exactly one gap, and p90_gap is the
nearest-rank percentile: the entry of the ascending-sorted gaps at index
`floor(0.9 * count)` clamped to `count - 1`. -/
theorem gap_stats_population_p90 (g : ℤ) (gs : List ℤ) :
    gapVariance (g :: gs) =
      ((g :: gs).map (fun x => ((x : ℚ) - gapMean (g :: gs)) ^ 2)).sum /
        (((g :: gs).length : ℕ) : ℚ) ∧
    ((g :: gs).length = 1 → gapVariance (g :: gs) = 0) ∧
    ∃ sorted : List ℤ, sorted.Perm (g :: gs) ∧ sorted.Sorted (fun a b => a ≤ b) ∧
      gapP90 (g :: gs) =
        sorted.getD
          (min (Nat.floor ((9 / 10 : ℚ) * (((g :: gs).length : ℕ) : ℚ)))
            ((g :: gs).length - 1)) 0 := by
  refine ⟨rfl, ?_, ?_⟩
  · intro hlen
    have hgs : gs = [] := by
      simpa using hlen
    subst hgs
    simp [gapVariance, gapMean]
  · refine ⟨List.insertionSort (fun a b => a ≤ b) (g :: gs), ?_, ?_, ?_⟩
    · exact List.perm_insertionSort _ _
    · exact List.sorted_insertionSort _ _
    · rw [gapP90, floor_nine_tenths]

/-- Witness for C3: the single-element gap sequence `[5]` satisfies the
count-one hypothesis and its variance is zero. -/
theorem gap_stats_population_p90_witness :
    [(5 : ℤ)].length = 1 ∧ gapVariance [(5 : ℤ)] = 0 :=
  ⟨rfl, (gap_stats_population_p90 5 []).2.1 rfl⟩

/-- Claim C4 (amended): with at least two matching occurrences the observed
ETA is `last_nonce + mean_gap`, where `last_nonce` is the largest matching
nonce; with exactly one occurrence it is `float(last_nonce)`; with zero
occurrences it is `0.0`.  It is never null. -/
theorem eta_observed_policy (bets : List LiveBet) (tol m : ℚ) :
    (∀ r0 r1 rest, matchingRows bets tol m = r0 :: r1 :: rest →
        (multiplierMetrics bets tol m).mean_gap =
          some (gapMean (lagGaps (r0 :: r1 :: rest))) ∧
        (multiplierMetrics bets tol m).eta_observed =
          some (((multiplierMetrics bets tol m).last_nonce : ℚ) +
            gapMean (lagGaps (r0 :: r1 :: rest))) ∧
        (∀ b ∈ matchingRows bets tol m,
          b.nonce ≤ (multiplierMetrics bets tol m).last_nonce)) ∧
    (∀ r0, matchingRows bets tol m = [r0] →
        (multiplierMetrics bets tol m).eta_observed = some ((r0.nonce : ℚ)) ∧
        (multiplierMetrics bets tol m).count = 1) ∧
    (matchingRows bets tol m = [] →
        (multiplierMetrics bets tol m).eta_observed = some 0 ∧
        (multiplierMetrics bets tol m).count = 0) := by
  refine ⟨?_, ?_, ?_⟩
  · intro r0 r1 rest hrows
    have hM : multiplierMetrics bets tol m = metricsFromRows m (r0 :: r1 :: rest) := by
      rw [multiplierMetrics, hrows]
    rw [hM]
    refine ⟨rfl, rfl, ?_⟩
    intro b hb
    have hsorted := matchingRows_sorted bets tol m
    rw [hrows] at hsorted hb
    have hlast := getLast?_cons_cons_eq r0 r1 rest
    rcases sorted_rel_getLast hsorted hlast b hb with h | h
    · rw [h]; exact Nat.le_refl _
    · exact h
  · intro r0 hrows
    rw [multiplierMetrics, hrows]
    exact ⟨rfl, rfl⟩
  · intro hrows
    rw [multiplierMetrics, hrows]
    exact ⟨rfl, rfl⟩

/-- Counterexample to claim C4 as stated: with one matching occurrence (and
with zero) the observed ETA is a concrete number, not null. -/
theorem eta_observed_policy_cex :
    (multiplierMetrics [exBet1] 1 1000).count = 1 ∧
    (multiplierMetrics [exBet1] 1 1000).eta_observed = some 100 ∧
    (multiplierMetrics [] 1 1000).count = 0 ∧
    (multiplierMetrics [] 1 1000).eta_observed = some 0 ∧
    some (100 : ℚ) ≠ (none : Option ℚ) ∧ some (0 : ℚ) ≠ (none : Option ℚ) := by
  refine ⟨?_, ?_, rfl, rfl, by simp, by simp⟩
  · rw [multiplierMetrics, exBets_rows_single]
    rfl
  · rw [multiplierMetrics, exBets_rows_single]
    show some ((100 : ℕ) : ℚ) = some 100
    norm_num

/-- Witness for C4: two matching occurrences at nonces 100 and 300 give
`eta_observed = last_nonce + mean_gap = 300 + 200`. -/
theorem eta_observed_policy_witness :
    (multiplierMetrics [exBet1, exBet2] 1 1000).eta_observed =
      some (((multiplierMetrics [exBet1, exBet2] 1 1000).last_nonce : ℚ) +
        gapMean (lagGaps [exBet1, exBet2])) :=
  ((eta_observed_policy [exBet1, exBet2] 1 1000).1
    exBet1 exBet2 [] exBets_rows_pair).2.1

/-- Claim C1 (amended): a metrics query that passes validation on an
existing stream succeeds, and a requested multiplier with zero matching
events yields the `count = 0` entry whose other statistics are zeroes
(`mean_gap = std_gap = p90_gap = 0.0`, `max_gap = 0`, `last_nonce = 0`,
`eta_observed = 0.0`); only `eta_theoretical` is null. -/
theorem metrics_zero_count_success (db : Db) (sid : Nat) (p : MetricsParams)
    (s : LiveStream) (htol : 0 < p.tolerance) (hbs : 0 < p.bucket_size)
    (htp1 : 0 < p.top_peaks_limit) (htp2 : p.top_peaks_limit ≤ 100)
    (hs : db.streams.find? (fun t => t.id == sid) = some s) :
    ∃ r, getStreamMetrics db sid p = .ok r ∧
      ∀ (i : Nat) (m : ℚ), p.multipliers[i]? = some m →
        (∀ b ∈ db.bets, b.stream_id = sid → ¬ |b.round_result - m| ≤ p.tolerance) →
        r.multiplier_stats[i]? = some (emptyMultiplierMetrics m) := by
  have h1 : ¬ p.tolerance ≤ 0 := not_le.mpr htol
  have h2 : ¬ p.bucket_size ≤ 0 := not_le.mpr hbs
  have h3 : ¬ (p.top_peaks_limit ≤ 0 ∨ 100 < p.top_peaks_limit) := by
    push_neg
    exact ⟨htp1, htp2⟩
  have hok : getStreamMetrics db sid p = Except.ok
      (StreamMetrics.mk sid
        (db.bets.filter (fun b => b.stream_id == sid)).length
        (streamMultiplierStats
          (db.bets.filter (fun b => b.stream_id == sid)) p.tolerance p.multipliers)
        (if 0 < (db.bets.filter (fun b => b.stream_id == sid)).length then
            densityBuckets p.bucket_size.toNat
              (db.bets.filter (fun b => b.stream_id == sid))
          else [])) := by
    unfold getStreamMetrics
    rw [if_neg h1, if_neg h2, if_neg h3, hs]
  refine ⟨_, hok, ?_⟩
  intro i m hm hno
  dsimp only
  simp only [streamMultiplierStats, List.getElem?_map, hm, Option.map_some']
  have hnil : (db.bets.filter (fun b => b.stream_id == sid)).filter
      (matchesTol p.tolerance m) = [] := by
    rw [List.filter_eq_nil_iff]
    intro b hb
    rcases List.mem_filter.mp hb with ⟨hbb, hsid⟩
    have hbsid : b.stream_id = sid := by simpa using hsid
    simp [matchesTol, hno b hbb hbsid]
  rw [multiplierMetrics, matchingRows, hnil]
  rfl

/-- Counterexample to claim C1 as stated: for a multiplier with zero
matching events the non-count statistics come back as concrete zeroes
(`some 0`), not as nulls. -/
theorem metrics_zero_count_zeroed_cex :
    getStreamMetrics ⟨[⟨7, "h", "c"⟩], [], 8, 1⟩ 7 ⟨[2], 1, 1000, 20⟩ =
      Except.ok (StreamMetrics.mk 7 0 [emptyMultiplierMetrics 2] []) ∧
    (emptyMultiplierMetrics 2).mean_gap = some 0 ∧
    (emptyMultiplierMetrics 2).eta_observed = some 0 ∧
    some (0 : ℚ) ≠ (none : Option ℚ) ∧ some (0 : ℤ) ≠ (none : Option ℤ) := by
  refine ⟨?_, rfl, rfl, by simp, by simp⟩
  unfold getStreamMetrics
  rw [if_neg (by norm_num), if_neg (by norm_num), if_neg (by norm_num)]
  rfl

/-- Witness for C1: the amended statement at a concrete database holding one
event that does not match the requested multiplier. -/
theorem metrics_zero_count_success_witness :
    ∃ r, getStreamMetrics ⟨[⟨7, "h", "c"⟩], [⟨1, 7, "x", 5, 50⟩], 8, 2⟩ 7
        ⟨[2], 1, 1000, 20⟩ = .ok r ∧
      ∀ (i : Nat) (m : ℚ), ([(2 : ℚ)] : List ℚ)[i]? = some m →
        (∀ b ∈ [(⟨1, 7, "x", 5, 50⟩ : LiveBet)], b.stream_id = 7 →
          ¬ |b.round_result - m| ≤ (1 : ℚ)) →
        r.multiplier_stats[i]? = some (emptyMultiplierMetrics m) :=
  metrics_zero_count_success ⟨[⟨7, "h", "c"⟩], [⟨1, 7, "x", 5, 50⟩], 8, 2⟩ 7
    ⟨[2], 1, 1000, 20⟩ ⟨7, "h", "c"⟩ (by norm_num) (by norm_num) (by norm_num)
    (by norm_num) (by decide)

/-- Claim C5: each entry of a batch metrics request equals the single entry
of the one-multiplier request with the same remaining parameters, and is
keyed by the exact requested multiplier; the rest of the multiplier list
never influences an entry. -/
theorem batch_stats_independent (db : Db) (sid : Nat) (p : MetricsParams)
    (i : Nat) (m : ℚ) (r rOne : StreamMetrics)
    (h : getStreamMetrics db sid p = .ok r)
    (hone : getStreamMetrics db sid { p with multipliers := [m] } = .ok rOne)
    (hm : p.multipliers[i]? = some m) :
    ∃ e, r.multiplier_stats[i]? = some e ∧ rOne.multiplier_stats = [e] ∧
      e.multiplier = m := by
  have hr := getStreamMetrics_ok_shape h
  have hr1 := getStreamMetrics_ok_shape hone
  refine ⟨multiplierMetrics (db.bets.filter (fun b => b.stream_id == sid))
    p.tolerance m, ?_, ?_, multiplierMetrics_multiplier _ _ _⟩
  · rw [hr, streamMultiplierStats, List.getElem?_map, hm, Option.map_some']
  · rw [hr1]; rfl

/-- Witness for C5: on a concrete two-multiplier batch request, the entry at
index 1 equals the entry of the single-multiplier request, keyed by the
requested value. -/
theorem batch_stats_independent_witness :
    ∃ e, (StreamMetrics.mk 7 0
        [emptyMultiplierMetrics 3, emptyMultiplierMetrics 5] []).multiplier_stats[1]? =
        some e ∧
      (StreamMetrics.mk 7 0 [emptyMultiplierMetrics 5] []).multiplier_stats = [e] ∧
      e.multiplier = 5 :=
  batch_stats_independent ⟨[⟨7, "h", "c"⟩], [], 8, 1⟩ 7 ⟨[3, 5], 1, 1000, 20⟩ 1 5
    (StreamMetrics.mk 7 0 [emptyMultiplierMetrics 3, emptyMultiplierMetrics 5] [])
    (StreamMetrics.mk 7 0 [emptyMultiplierMetrics 5] [])
    (by unfold getStreamMetrics
        rw [if_neg (by norm_num), if_neg (by norm_num), if_neg (by norm_num)]
        rfl)
    (by unfold getStreamMetrics
        rw [if_neg (by norm_num), if_neg (by norm_num), if_neg (by norm_num)]
        rfl)
    rfl

/-- The gap column of the worked example. -/
theorem exBets_gaps : lagGaps exBets = [200, 300] := rfl

/-- Claim C2 (amended): the per-multiplier metrics select exactly the events
with `|round_result - multiplier| ≤ tolerance`, order them ascending by
nonce, and give each row after the first a gap equal to its nonce minus its
immediate predecessor's; on the worked example (nonces 100, 300, 600) the
gaps are [200, 300] and the entry reports `mean_gap = 250.0` and
`max_gap = 300` — but `count = 3`, the number of matching events (not the
gap count 2), and no `min` statistic exists in the response. -/
theorem metrics_selection_gaps (bets : List LiveBet) (tol m : ℚ) :
    ((matchingRows bets tol m).Perm (bets.filter (matchesTol tol m)) ∧
      (∀ b, b ∈ matchingRows bets tol m ↔ b ∈ bets ∧ |b.round_result - m| ≤ tol)) ∧
    (matchingRows bets tol m).Sorted nonceLe ∧
    (lagGaps (matchingRows bets tol m)).length = (matchingRows bets tol m).length - 1 ∧
    (∀ (i : Nat) (a b : LiveBet), (matchingRows bets tol m)[i]? = some a →
        (matchingRows bets tol m)[i + 1]? = some b →
        (lagGaps (matchingRows bets tol m))[i]? = some ((b.nonce : ℤ) - (a.nonce : ℤ))) ∧
    (lagGaps (matchingRows exBets 1 1000) = [200, 300] ∧
      (multiplierMetrics exBets 1 1000).count = 3 ∧
      (multiplierMetrics exBets 1 1000).mean_gap = some 250 ∧
      (multiplierMetrics exBets 1 1000).max_gap = some 300) := by
  refine ⟨⟨matchingRows_perm bets tol m, fun b => mem_matchingRows⟩,
    matchingRows_sorted bets tol m, lagGaps_length _, ?_, ?_, ?_, ?_, ?_⟩
  · intro i a b ha hb
    rw [lagGaps, List.getElem?_zipWith', tail_getElem?, ha, hb]
    rfl
  · rw [exBets_rows, exBets_gaps]
  · rw [multiplierMetrics, exBets_rows]
    rfl
  · rw [multiplierMetrics, exBets_rows]
    show some (gapMean (lagGaps exBets)) = some 250
    rw [exBets_gaps]
    norm_num [gapMean]
  · rw [multiplierMetrics, exBets_rows]
    show some (gapMax (lagGaps exBets)) = some 300
    rw [exBets_gaps]
    norm_num [gapMax]

/-- Counterexample to claim C2 as stated: the worked example's entry reports
`count = 3` (the number of matching events), not the claimed gap-statistics
count 2. -/
theorem metrics_selection_gaps_cex :
    (multiplierMetrics exBets 1 1000).count = 3 ∧ (3 : Nat) ≠ 2 := by
  refine ⟨?_, by decide⟩
  rw [multiplierMetrics, exBets_rows]
  rfl

/-- Witness for C2: the gap at position 0 pairs the example events at nonces
100 and 300. -/
theorem metrics_selection_gaps_witness :
    (lagGaps (matchingRows exBets 1 1000))[0]? =
      some ((exBet2.nonce : ℤ) - (exBet1.nonce : ℤ)) :=
  (metrics_selection_gaps exBets 1 1000).2.2.2.1 0 exBet1 exBet2
    (by rw [exBets_rows]; rfl) (by rw [exBets_rows]; rfl)

/-- Sorting the example events by nonce leaves them in place. -/
theorem exBets_sort : sortByNonce exBets = exBets := by
  simp [exBets, sortByNonce, List.insertionSort, List.orderedInsert,
    exBet1, exBet2, exBet3, nonceLe]

/-- All example events carry the result of `exBet2`. -/
theorem exBets_filter_sameResult :
    exBets.filter (fun x => decide (x.round_result = exBet2.round_result)) = exBets := by
  simp [exBets, exBet1, exBet2, exBet3]

/-- The distance of the middle example event: its predecessor among the
events with the identical raw result is the event at nonce 100. -/
theorem exBet2_distance : distance_prev_opt exBets exBet2 = some 200 := by
  unfold distance_prev_opt
  rw [exBets_filter_sameResult, exBets_sort]
  have hlt : exBets.filter (fun x => decide (x.nonce < exBet2.nonce)) = [exBet1] := by
    simp [exBets, exBet1, exBet2, exBet3]
  rw [hlt]
  rfl

/-- Claim C6 (amended): `distance_prev_opt` partitions events by exact raw
`round_result` equality — not by the 2-decimal quantization: an event's
distance is null exactly when no event of the same raw result has a smaller
nonce, and otherwise it is the nonce minus the nonce of the latest earlier
event with the identical raw result. -/
theorem distance_partition_raw_equality (bets : List LiveBet) (b : LiveBet) :
    (distance_prev_opt bets b = none ↔
      ∀ x ∈ bets, x.round_result = b.round_result → ¬ x.nonce < b.nonce) ∧
    (∀ d : ℤ, distance_prev_opt bets b = some d →
      ∃ x ∈ bets, x.round_result = b.round_result ∧ x.nonce < b.nonce ∧
        d = (b.nonce : ℤ) - (x.nonce : ℤ) ∧
        ∀ y ∈ bets, y.round_result = b.round_result → y.nonce < b.nonce →
          y.nonce ≤ x.nonce) := by
  have hmem : ∀ x : LiveBet,
      x ∈ (sortByNonce (bets.filter
          (fun x => decide (x.round_result = b.round_result)))).filter
          (fun x => decide (x.nonce < b.nonce)) ↔
        x ∈ bets ∧ x.round_result = b.round_result ∧ x.nonce < b.nonce := by
    intro x
    unfold sortByNonce
    rw [List.mem_filter, (List.perm_insertionSort nonceLe _).mem_iff,
      List.mem_filter]
    simp [and_assoc]
  have hsorted : ((sortByNonce (bets.filter
      (fun x => decide (x.round_result = b.round_result)))).filter
      (fun x => decide (x.nonce < b.nonce))).Sorted nonceLe :=
    List.Pairwise.filter _ (List.sorted_insertionSort nonceLe _)
  constructor
  · unfold distance_prev_opt
    cases hcl : ((sortByNonce (bets.filter
        (fun x => decide (x.round_result = b.round_result)))).filter
        (fun x => decide (x.nonce < b.nonce))).getLast? with
    | none =>
      constructor
      · intro _ x hx hrr hlt
        rw [List.getLast?_eq_none_iff] at hcl
        have hxm := (hmem x).mpr ⟨hx, hrr, hlt⟩
        rw [hcl] at hxm
        exact absurd hxm (List.not_mem_nil x)
      · intro _
        rfl
    | some p =>
      constructor
      · intro h
        exact absurd h (by simp)
      · intro hall
        exfalso
        rcases (hmem p).mp (mem_of_getLast?_eq_some hcl) with ⟨hpb, hprr, hplt⟩
        exact hall p hpb hprr hplt
  · intro d hd
    unfold distance_prev_opt at hd
    cases hcl : ((sortByNonce (bets.filter
        (fun x => decide (x.round_result = b.round_result)))).filter
        (fun x => decide (x.nonce < b.nonce))).getLast? with
    | none =>
      rw [hcl] at hd
      exact absurd hd (by simp)
    | some p =>
      rw [hcl] at hd
      have hdd : d = (b.nonce : ℤ) - (p.nonce : ℤ) := (Option.some.inj hd).symm
      rcases (hmem p).mp (mem_of_getLast?_eq_some hcl) with ⟨hpb, hprr, hplt⟩
      refine ⟨p, hpb, hprr, hplt, hdd, ?_⟩
      intro y hy hyrr hylt
      have hym := (hmem y).mpr ⟨hy, hyrr, hylt⟩
      rcases sorted_rel_getLast hsorted hcl y hym with h | h
      · rw [h]
      · exact h

/-- Counterexample to claim C6 as stated: the events at nonces 100 and 300
have raw results 10.001 and 10.004, which quantize to the same 2-decimal
bucket 10.00, yet the second event's `distance_prev_opt` is null (they sit
in different raw-result partitions), not the claimed 200. -/
theorem distance_partition_quantized_cex :
    bucket_2dp cexBetA.round_result = bucket_2dp cexBetB.round_result ∧
    cexBetA.round_result ≠ cexBetB.round_result ∧
    distance_prev_opt [cexBetA, cexBetB] cexBetB = none ∧
    (none : Option ℤ) ≠ some ((cexBetB.nonce : ℤ) - (cexBetA.nonce : ℤ)) := by
  refine ⟨?_, ?_, ?_, by simp⟩
  · norm_num [bucket_2dp, cexBetA, cexBetB, round_eq]
  · norm_num [cexBetA, cexBetB]
  · unfold distance_prev_opt
    have h1 : ([cexBetA, cexBetB].filter
        (fun x => decide (x.round_result = cexBetB.round_result))) = [cexBetB] := by
      have ha : (decide (cexBetA.round_result = cexBetB.round_result)) = false := by
        norm_num [cexBetA, cexBetB]
      simp [List.filter_cons, ha]
    rw [h1]
    have h2 : sortByNonce [cexBetB] = [cexBetB] := by
      simp [sortByNonce, List.insertionSort, List.orderedInsert]
    rw [h2]
    have h3 : ([cexBetB].filter (fun x => decide (x.nonce < cexBetB.nonce))) = [] := by
      simp
    rw [h3]
    rfl

/-- Witness for C6: applying the amended characterization to the example
event at nonce 300 recovers the predecessor at nonce 100 within the
identical-raw-result partition. -/
theorem distance_partition_raw_equality_witness :
    ∃ x ∈ exBets, x.round_result = exBet2.round_result ∧ x.nonce < exBet2.nonce ∧
      (200 : ℤ) = (exBet2.nonce : ℤ) - (x.nonce : ℤ) ∧
      ∀ y ∈ exBets, y.round_result = exBet2.round_result → y.nonce < exBet2.nonce →
        y.nonce ≤ x.nonce :=
  (distance_partition_raw_equality exBets exBet2).2 200 exBet2_distance

/-- The group key of a mapped bet list counts exactly the bets of the
corresponding nonce window. -/
theorem count_densityKey_window (w : Nat) (bets : List LiveBet) (k : Nat)
    (hw : 0 < w) :
    (bets.map (densityKey w)).count k =
      (bets.filter (fun b => decide (k * w ≤ b.nonce ∧ b.nonce < (k + 1) * w))).length := by
  rw [count_map_eq_countP, List.countP_eq_length_filter]
  congr 1
  apply List.filter_congr
  intro x _
  rw [Bool.eq_iff_iff, beq_iff_eq, decide_eq_true_iff]
  show x.nonce / w = k ↔ _
  exact div_eq_iff_window hw

/-- Claim C8: for window width > 0 the density histogram maps window index k
to the number of the stream's events with `k*w ≤ nonce < (k+1)*w`; an index
is present exactly when its window holds at least one event, every present
count is ≥ 1, and the counts sum to the total event count. -/
theorem density_histogram_contract (w : Nat) (bets : List LiveBet) (hw : 0 < w) :
    (∀ k c, (k, c) ∈ densityBuckets w bets →
        c = (bets.filter (fun b => decide (k * w ≤ b.nonce ∧ b.nonce < (k + 1) * w))).length ∧
        1 ≤ c) ∧
    (∀ k, (∃ c, (k, c) ∈ densityBuckets w bets) ↔
        ∃ b ∈ bets, k * w ≤ b.nonce ∧ b.nonce < (k + 1) * w) ∧
    ((densityBuckets w bets).map (fun kc => kc.2)).sum = bets.length := by
  have hKmem : ∀ k : Nat,
      k ∈ List.insertionSort (fun a b => a ≤ b) ((bets.map (densityKey w)).dedup) ↔
        k ∈ bets.map (densityKey w) := by
    intro k
    rw [(List.perm_insertionSort _ _).mem_iff, List.mem_dedup]
  have hPair : ∀ k c, (k, c) ∈ densityBuckets w bets ↔
      (k ∈ List.insertionSort (fun a b => a ≤ b) ((bets.map (densityKey w)).dedup) ∧
        c = (bets.map (densityKey w)).count k) := by
    intro k c
    unfold densityBuckets
    rw [List.mem_map]
    constructor
    · rintro ⟨k2, hk2, hfk⟩
      rw [Prod.mk.injEq] at hfk
      rcases hfk with ⟨rfl, rfl⟩
      exact ⟨hk2, rfl⟩
    · rintro ⟨hk, rfl⟩
      exact ⟨k, hk, rfl⟩
  refine ⟨?_, ?_, ?_⟩
  · intro k c hkc
    rcases (hPair k c).mp hkc with ⟨hk, rfl⟩
    refine ⟨count_densityKey_window w bets k hw, ?_⟩
    exact List.count_pos_iff.mpr ((hKmem k).mp hk)
  · intro k
    constructor
    · rintro ⟨c, hkc⟩
      rcases (hPair k c).mp hkc with ⟨hk, _⟩
      rcases List.mem_map.mp ((hKmem k).mp hk) with ⟨b, hb, hbk⟩
      exact ⟨b, hb, (div_eq_iff_window hw).mp hbk⟩
    · rintro ⟨b, hb, hwin⟩
      have hk : k ∈ bets.map (densityKey w) :=
        List.mem_map.mpr ⟨b, hb, (div_eq_iff_window hw).mpr hwin⟩
      exact ⟨(bets.map (densityKey w)).count k,
        (hPair k _).mpr ⟨(hKmem k).mpr hk, rfl⟩⟩
  · unfold densityBuckets
    rw [List.map_map]
    have hform : ((fun kc : Nat × Nat => kc.2) ∘
        (fun k => (k, (bets.map (densityKey w)).count k))) =
        fun k => (bets.map (densityKey w)).count k := rfl
    rw [hform]
    have hnd : (List.insertionSort (fun a b => a ≤ b)
        ((bets.map (densityKey w)).dedup)).Nodup :=
      (List.perm_insertionSort _ _).nodup_iff.mpr (List.nodup_dedup _)
    have hcov : ∀ x ∈ bets.map (densityKey w),
        x ∈ List.insertionSort (fun a b => a ≤ b) ((bets.map (densityKey w)).dedup) :=
      fun x hx => (hKmem x).mpr hx
    rw [sum_count_over_keys _ _ hnd hcov, List.length_map]

/-- Witness for C8: the example events at nonces 100, 300 and 600 with
window width 10 give counts summing to the event total. -/
theorem density_histogram_contract_witness :
    (0 : Nat) < 10 ∧
    ((densityBuckets 10 exBets).map (fun kc => kc.2)).sum = exBets.length :=
  ⟨by decide, (density_histogram_contract 10 exBets (by decide)).2.2⟩

/-- Inserting through the duplicate check preserves the uniqueness of
`(stream_id, antebot_bet_id)` pairs. -/
theorem insertBet_unique (db : Db) (s : LiveStream) (rq : IngestBetRequest)
    (hu : BetsUnique db.bets) : BetsUnique (insertBet db s rq).2.bets := by
  unfold insertBet
  cases hf : db.bets.find? (isDuplicateOf s.id rq.id) with
  | some b => exact hu
  | none =>
    have hnone := List.find?_eq_none.mp hf
    unfold BetsUnique at hu ⊢
    show (db.bets ++ [_]).Pairwise _
    rw [List.pairwise_append]
    refine ⟨hu, List.pairwise_singleton _ _, ?_⟩
    intro a ha b2 hb2
    rw [List.mem_singleton] at hb2
    subst hb2
    have hna := hnone a ha
    simp only [isDuplicateOf, Bool.and_eq_true, beq_iff_eq, not_and] at hna
    intro hcontra
    exact hna hcontra.1 hcontra.2

/-- On a `(stream_id, antebot_bet_id)` duplicate, the insert step reports
`accepted = False` and leaves the bets table unchanged. -/
theorem insertBet_duplicate (db : Db) (s : LiveStream) (rq : IngestBetRequest)
    (hdup : ∃ b ∈ db.bets, b.stream_id = s.id ∧ b.antebot_bet_id = rq.id) :
    (insertBet db s rq).1.accepted = false ∧ (insertBet db s rq).2.bets = db.bets := by
  obtain ⟨b, hb, h1, h2⟩ := hdup
  have hsome : (db.bets.find? (isDuplicateOf s.id rq.id)).isSome := by
    rw [List.find?_isSome]
    exact ⟨b, hb, by simp [isDuplicateOf, h1, h2]⟩
  obtain ⟨b2, hb2⟩ := Option.isSome_iff_exists.mp hsome
  unfold insertBet
  rw [hb2]
  exact ⟨rfl, rfl⟩

/-- Claim C9: every ingest preserves the at-most-one-bet-per
`(stream, antebot_bet_id)` invariant, and ingesting a bet whose
`antebot_bet_id` already exists in the resolved stream returns
`accepted = false` and leaves the bets table unchanged. -/
theorem ingest_unique_idempotent (db : Db) (r : IngestBetRequest)
    (s : LiveStream) (hu : BetsUnique db.bets) :
    BetsUnique (ingestBet db r).2.bets ∧
    (db.streams.find? (seedPairMatches r) = some s →
      (∃ b ∈ db.bets, b.stream_id = s.id ∧ b.antebot_bet_id = r.id) →
      (ingestBet db r).1.accepted = false ∧ (ingestBet db r).2.bets = db.bets) := by
  constructor
  · unfold ingestBet
    cases hf : db.streams.find? (seedPairMatches r) with
    | some stream => exact insertBet_unique db stream r hu
    | none => exact insertBet_unique _ _ _ hu
  · intro hfs hdup
    unfold ingestBet
    rw [hfs]
    exact insertBet_duplicate db s r hdup

/-- Witness for C9: re-ingesting the already-present bet id "bet1" into its
stream is rejected idempotently, and the invariant survives. -/
theorem ingest_unique_idempotent_witness :
    BetsUnique (ingestBet ⟨[⟨0, "h", "c"⟩], [⟨0, 0, "bet1", 5, 2⟩], 1, 1⟩
        ⟨"bet1", "h", "c", 6, 3⟩).2.bets ∧
    (ingestBet ⟨[⟨0, "h", "c"⟩], [⟨0, 0, "bet1", 5, 2⟩], 1, 1⟩
        ⟨"bet1", "h", "c", 6, 3⟩).1.accepted = false ∧
    (ingestBet ⟨[⟨0, "h", "c"⟩], [⟨0, 0, "bet1", 5, 2⟩], 1, 1⟩
        ⟨"bet1", "h", "c", 6, 3⟩).2.bets = [⟨0, 0, "bet1", 5, 2⟩] := by
  have h := ingest_unique_idempotent ⟨[⟨0, "h", "c"⟩], [⟨0, 0, "bet1", 5, 2⟩], 1, 1⟩
    ⟨"bet1", "h", "c", 6, 3⟩ ⟨0, "h", "c"⟩ (List.pairwise_singleton _ _)
  have h2 := h.2 (by decide) ⟨⟨0, 0, "bet1", 5, 2⟩, by decide, by decide, by decide⟩
  exact ⟨h.1, h2.1, h2.2⟩

/-- Claim C10: a negative `since_id` fails with InvalidArgument before any
lookup; otherwise, for an existing stream, the tail returns exactly the
stream's bets with `id > since_id` in ascending id order, with `last_id` the
greatest returned id, or null when nothing is new. -/
theorem tail_query_contract (db : Db) (sid : Nat) (sinceId : ℤ) :
    (sinceId < 0 → tailStreamBets db sid sinceId =
      .error (.invalidArgument "since_id cannot be negative")) ∧
    (0 ≤ sinceId → ∀ s, db.streams.find? (fun t => t.id == sid) = some s →
      ∃ resp, tailStreamBets db sid sinceId = .ok resp ∧
        resp.bets.Perm (db.bets.filter
          (fun b => b.stream_id == sid && decide (sinceId < (b.id : ℤ)))) ∧
        (∀ b, b ∈ resp.bets ↔ b ∈ db.bets ∧ b.stream_id = sid ∧ sinceId < (b.id : ℤ)) ∧
        resp.bets.Sorted idLe ∧
        (resp.bets = [] → resp.last_id = none) ∧
        (∀ p, resp.bets.getLast? = some p →
          resp.last_id = some p.id ∧ ∀ b ∈ resp.bets, b.id ≤ p.id)) := by
  constructor
  · intro hneg
    unfold tailStreamBets
    rw [if_pos hneg]
  · intro hpos s hs
    unfold tailStreamBets
    rw [if_neg (not_lt.mpr hpos), hs]
    refine ⟨_, rfl, ?_, ?_, ?_, ?_, ?_⟩
    · exact List.perm_insertionSort idLe _
    · intro b
      show b ∈ sortById _ ↔ _
      unfold sortById
      rw [(List.perm_insertionSort idLe _).mem_iff, List.mem_filter]
      simp [and_assoc]
    · exact List.sorted_insertionSort idLe _
    · intro hnil
      show ((sortById _).getLast?).map _ = none
      rw [show sortById (db.bets.filter
        (fun b => b.stream_id == sid && decide (sinceId < (b.id : ℤ)))) = [] from hnil]
      rfl
    · intro p hp
      constructor
      · show ((sortById _).getLast?).map _ = some p.id
        rw [show (sortById (db.bets.filter
          (fun b => b.stream_id == sid && decide (sinceId < (b.id : ℤ))))).getLast? =
          some p from hp]
        rfl
      · intro b hb
        rcases sorted_rel_getLast (List.sorted_insertionSort idLe _) hp b hb with h | h
        · rw [h]
        · exact h

/-- Witness for C10: on a concrete database, `since_id = -1` is rejected and
`since_id = 1` returns the single newer bet of stream 1. -/
theorem tail_query_contract_witness :
    (tailStreamBets ⟨[⟨1, "h", "c"⟩], [⟨1, 1, "a", 5, 2⟩, ⟨2, 1, "b", 6, 3⟩,
        ⟨7, 2, "c", 1, 1⟩], 2, 8⟩ 1 (-1) =
      .error (.invalidArgument "since_id cannot be negative")) ∧
    (∃ resp, tailStreamBets ⟨[⟨1, "h", "c"⟩], [⟨1, 1, "a", 5, 2⟩, ⟨2, 1, "b", 6, 3⟩,
        ⟨7, 2, "c", 1, 1⟩], 2, 8⟩ 1 1 = .ok resp ∧
      resp.bets.Perm ([⟨1, 1, "a", 5, 2⟩, ⟨2, 1, "b", 6, 3⟩,
        ⟨7, 2, "c", 1, 1⟩].filter
          (fun b => b.stream_id == 1 && decide ((1 : ℤ) < (b.id : ℤ)))) ∧
      (∀ b, b ∈ resp.bets ↔ b ∈ [(⟨1, 1, "a", 5, 2⟩ : LiveBet), ⟨2, 1, "b", 6, 3⟩,
        ⟨7, 2, "c", 1, 1⟩] ∧ b.stream_id = 1 ∧ (1 : ℤ) < (b.id : ℤ)) ∧
      resp.bets.Sorted idLe ∧
      (resp.bets = [] → resp.last_id = none) ∧
      (∀ p, resp.bets.getLast? = some p →
        resp.last_id = some p.id ∧ ∀ b ∈ resp.bets, b.id ≤ p.id)) :=
  ⟨(tail_query_contract ⟨[⟨1, "h", "c"⟩], [⟨1, 1, "a", 5, 2⟩, ⟨2, 1, "b", 6, 3⟩,
      ⟨7, 2, "c", 1, 1⟩], 2, 8⟩ 1 (-1)).1 (by norm_num),
    (tail_query_contract ⟨[⟨1, "h", "c"⟩], [⟨1, 1, "a", 5, 2⟩, ⟨2, 1, "b", 6, 3⟩,
      ⟨7, 2, "c", 1, 1⟩], 2, 8⟩ 1 1).2 (by norm_num) ⟨1, "h", "c"⟩ (by decide)⟩
